import Mathlib

/-!
Verification development for the Cloud Run declarative-deployment core of the
moltbook-api repository (`src/services/CloudRunDeployService.js`).

The JavaScript source is shallowly embedded: pure fragments become Lean
functions, the template-file read and YAML parse of `loadBaseTemplate` become
explicit `Except` parameters, the remote Cloud Run control plane (an external
collaborator, consumed through its create/update RPC contract: create fails
with code 6 ALREADY_EXISTS when the fully-qualified name is taken, a service
URL is stable for a given fully-qualified name) becomes a deterministic state
machine, and `deploy` threads that state explicitly, also emitting the list of
control-plane operations it issued.  JavaScript numbers appearing as instance
counts are modelled as integers (the JSON requests of interest carry integral
values; `Number.isInteger` is identically true on that fragment), and the
dynamic objects handled by `applyOverrides` are modelled both as typed records
(functional version) and as an untyped mutable object heap (for the
no-mutation-of-the-base frame property).
-/

/-! ## JavaScript string and number helpers -/

/-- Numeric value of a list of decimal digit characters, most significant
first (the value `parseInt` gives an all-digit string). -/
def digitsVal (l : List Char) : Nat :=
  l.foldl (fun a c => a * 10 + (c.toNat - 48)) 0

/-- The `parseInt(str, 10)`: skip leading whitespace, optional sign, then the
longest digit run; `none` models `NaN` (no digits at all). -/
def jsParseInt (s : String) : Option Int :=
  let l := s.toList.dropWhile Char.isWhitespace
  let signAndRest : Int × List Char :=
    match l with
    | '-' :: t => (-1, t)
    | '+' :: t => (1, t)
    | _ => (1, l)
  let ds := signAndRest.2.takeWhile Char.isDigit
  if ds.isEmpty then none else some (signAndRest.1 * (digitsVal ds : Int))

/-- The `str.replace(/(\d+)$/, "$1s")`: append `"s"` exactly when the string ends
in a decimal digit (the regex rewrites the trailing digit run to itself plus
`"s"`). -/
def jsAppendS (s : String) : String :=
  match s.toList.getLast? with
  | some c => if c.isDigit then s ++ "s" else s
  | none => s

/-- The `String.prototype.trim`: drop whitespace from both ends (whitespace set
modelled by `Char.isWhitespace`). -/
def jsTrim (s : String) : String :=
  String.mk (((s.toList.dropWhile Char.isWhitespace).reverse.dropWhile
    Char.isWhitespace).reverse)

/-- The `lst.every`-style prefix test on character lists. -/
def isPrefixList : List Char → List Char → Bool
  | [], _ => true
  | _ :: _, [] => false
  | a :: as, b :: bs => a = b && isPrefixList as bs

/-- Substring search on character lists (JS `String.prototype.includes`). -/
def listHasSub : List Char → List Char → Bool
  | l, ns =>
    match l with
    | [] => ns.isEmpty
    | _ :: t => isPrefixList ns l || listHasSub t ns

/-- The `hay.includes(needle)`. -/
def containsSub (hay needle : String) : Bool :=
  listHasSub hay.toList needle.toList

/-- JS `a ?? b` on possibly-absent strings (skips only null/undefined). -/
def jsCoalesce (a b : Option String) : Option String :=
  match a with
  | some x => some x
  | none => b

/-- JS `a || b` on possibly-absent strings (also skips the falsy `""`). -/
def jsOrOpt (a b : Option String) : Option String :=
  match a with
  | some s => if s = "" then b else some s
  | none => b

/-- JS string interpolation of a possibly-undefined value. -/
def jsStringU (o : Option String) : String := o.getD "undefined"

/-- The `!v || !v.trim()` for a possibly-absent string value. -/
def optBlank (o : Option String) : Bool :=
  match o with
  | none => true
  | some s => jsTrim s = ""

/-! ## Duration adapter (`parseTimeoutToDuration`, lines 30-38) -/

/-- Protobuf `Duration` pair produced by the adapter. -/
structure Duration where
  seconds : Int
  nanos : Int
deriving DecidableEq, Repr

/-- Match of `/^(\d+)(?:\.(\d+))?s$/`: whole-second digits and the optional
fractional digit group. -/
def durMatch (l : List Char) : Option (List Char × Option (List Char)) :=
  if (l.takeWhile Char.isDigit).isEmpty then none
  else
    match l.dropWhile Char.isDigit with
    | ['s'] => some (l.takeWhile Char.isDigit, none)
    | '.' :: r2 =>
      if (r2.takeWhile Char.isDigit).isEmpty then none
      else if r2.dropWhile Char.isDigit = ['s'] then
        some (l.takeWhile Char.isDigit, some (r2.takeWhile Char.isDigit))
      else none
    | _ => none

/-- The `match[2].padEnd(9, "0")`. -/
def padTo9 (l : List Char) : List Char :=
  l ++ List.replicate (9 - l.length) '0'

/-- The `parseTimeoutToDuration` on a string input (lines 30-38 of the source):
trim, normalize a bare trailing integer to a `"...s"` form, match the duration
grammar; on a match the captures give seconds and nanos, otherwise
`parseInt(str, 10) || 300` gives the seconds and nanos is 0; seconds are
clamped below at 0. -/
def parseTimeoutToDuration (value : String) : Duration :=
  match durMatch (jsAppendS (jsTrim value)).toList with
  | some (ds, frac) =>
    ⟨max (0 : Int) (digitsVal ds : Int),
     match frac with
     | some fs => (digitsVal ((padTo9 fs).take 9) : Int)
     | none => 0⟩
  | none =>
    ⟨max (0 : Int)
      (match jsParseInt (jsAppendS (jsTrim value)) with
       | some k => if k = 0 then 300 else k
       | none => 300),
     0⟩

/-! ## Typed data model of the service spec trees -/

/-- One environment entry of the merged spec (`{ name, value }`). -/
structure EnvVar where
  name : String
  value : String
deriving DecidableEq, Repr

/-- A caller-supplied env override entry: either a `"KEY=VALUE"` string or a
structured `{ name, value }` pair (whose value may be absent). -/
inductive EnvEntry
  | raw (s : String)
  | pair (name : String) (value : Option String)
deriving DecidableEq, Repr

/-- The `resources.limits` of a container. -/
structure Limits where
  cpu : Option String := none
  memory : Option String := none
deriving DecidableEq, Repr

/-- The `resources` of a container. -/
structure Resources where
  limits : Option Limits := none
  cpuIdle : Option Bool := none
deriving DecidableEq, Repr

/-- One container slot of the template. -/
structure Container where
  image : Option String := none
  env : List EnvVar := []
  resources : Option Resources := none
deriving DecidableEq, Repr

/-- The `template.scaling`; instance counts are modelled as integers. -/
structure Scaling where
  minInstanceCount : Option Int := none
  maxInstanceCount : Option Int := none
deriving DecidableEq, Repr

/-- The `template` of the service spec (timeout still in its string form). -/
structure Template where
  containers : List Container := []
  scaling : Option Scaling := none
  timeout : Option String := none
deriving DecidableEq, Repr

/-- A service spec document (base template or merged spec). -/
structure Spec where
  template : Option Template := none
  description : Option String := none
deriving DecidableEq, Repr

/-- The `resources` as supplied in the request overrides. -/
structure OvResources where
  cpu : Option String := none
  memory : Option String := none
  cpuIdle : Option Bool := none
deriving DecidableEq, Repr

/-- The recognized override fields of the request body (all optional;
`none` models an absent field). -/
structure Overrides where
  containerImage : Option String := none
  env : Option (List EnvEntry) := none
  resources : Option OvResources := none
  minInstances : Option Int := none
  maxInstances : Option Int := none
  timeout : Option String := none
  description : Option String := none
deriving DecidableEq, Repr

/-! ## Shape adapter (`toApiShape`, lines 43-50) -/

/-- The `template` after the shape adapter: timeout as a structured `Duration`. -/
structure ApiTemplate where
  containers : List Container := []
  scaling : Option Scaling := none
  timeout : Option Duration := none
deriving DecidableEq, Repr

/-- Service spec in the wire shape expected by the control-plane client. -/
structure ApiSpec where
  template : Option ApiTemplate := none
  description : Option String := none
deriving DecidableEq, Repr

/-- The `toApiShape` (lines 43-50): clone, convert `template.timeout` when it is
not null/undefined, pass everything else through unchanged. -/
def toApiShape (serviceSpec : Spec) : ApiSpec :=
  { template :=
      serviceSpec.template.map fun t =>
        { containers := t.containers
          scaling := t.scaling
          timeout := t.timeout.map parseTimeoutToDuration }
    description := serviceSpec.description }

/-! ## Override merger (`applyOverrides`, lines 80-138) -/

/-- The unresolved image placeholder of the base template. -/
def PLACEHOLDER : String := "\x7b\x7bCONTAINER_IMAGE\x7d\x7d"

/-- The fallback image substituted when the template still holds the
placeholder and no override is given (line 98). -/
def FALLBACK_IMAGE : String := "gcr.io/cloudrun/container:hello"

/-- Conversion of one env override entry (lines 102-106): a string is split on
`"="`, the first part is the name and the rest re-joined with `"="` is the
value (`|| ""` turns an absent value part into the empty string); a structured
pair keeps its name, its value defaulting to `""` via `?? ""`. -/
def envEntryToVar : EnvEntry → EnvVar
  | .raw s =>
    let parts := s.splitOn "="
    { name := parts.headD "", value := String.intercalate "=" (parts.drop 1) }
  | .pair n v => { name := n, value := v.getD "" }

/-- The third disjunct of the image selection chain (lines 92-94): the
template image when it is truthy and not the placeholder, else null. -/
def imageFromTemplate (c : Container) : Option String :=
  match c.image with
  | some i => if i ≠ "" ∧ i ≠ PLACEHOLDER then some i else none
  | none => none

/-- The image selection chain of lines 89-94.  In the source the middle
disjunct `(overrides.containerImage === "" ? "" : null)` always evaluates to a
falsy value (`""` or `null`), so under `||` it never supplies the result: an
explicit empty-string override falls through to the template image. -/
def selectImage (ov : Option String) (c : Container) : Option String :=
  match ov with
  | some s => if s ≠ "" then some s else imageFromTemplate c
  | none => imageFromTemplate c

/-- Timeout normalization of lines 129-130: append a trailing `"s"` to a bare
trailing integer; only the empty string is falsy, in which case `|| "300s"`
substitutes the default. -/
def normalizeTimeout (t : String) : String :=
  let s := jsAppendS t
  if s = "" then "300s" else s

/-- The `applyOverrides` (lines 80-138), on the typed model.  `structuredClone`
becomes a value copy; `container` names the first element of the (possibly
just defaulted) containers list and its mutations become functional updates of
that element. -/
def applyOverrides (base : Spec) (overrides : Overrides) : Spec :=
  -- line 83: if (!merged.template) merged.template = {};
  let t0 : Template := base.template.getD {}
  -- lines 84-86: default container when the list is absent or empty
  let cs0 : List Container :=
    if t0.containers.length = 0 then
      [{ image := some "", env := [], resources := some { limits := some {} } }]
    else t0.containers
  let c0 : Container := cs0.headD {}
  -- lines 89-99: image selection and placeholder fallback
  let c1 : Container :=
    match selectImage overrides.containerImage c0 with
    | some i => { c0 with image := some i }
    | none =>
      if c0.image = some PLACEHOLDER then { c0 with image := some FALLBACK_IMAGE }
      else c0
  -- lines 101-107: a non-empty env override fully replaces the env list
  let c2 : Container :=
    match overrides.env with
    | some l => if l.length > 0 then { c1 with env := l.map envEntryToVar } else c1
    | none => c1
  -- lines 109-118: resources
  let c3 : Container :=
    match overrides.resources with
    | some r =>
      let res0 := c2.resources.getD { limits := some {} }
      let lim0 := res0.limits.getD {}
      let lim1 : Limits :=
        { cpu := match r.cpu with | some c => some c | none => lim0.cpu
          memory := match r.memory with | some m => some m | none => lim0.memory }
      { c2 with
        resources := some
          { limits := some lim1
            cpuIdle := match r.cpuIdle with | some b => some b | none => res0.cpuIdle } }
    | none => c2
  -- lines 120-126: scaling
  let sc1 : Option Scaling :=
    if overrides.minInstances.isSome ∨ overrides.maxInstances.isSome then
      let s0 := t0.scaling.getD {}
      some
        { minInstanceCount :=
            match overrides.minInstances with | some m => some m | none => s0.minInstanceCount
          maxInstanceCount :=
            match overrides.maxInstances with | some m => some m | none => s0.maxInstanceCount }
    else t0.scaling
  -- lines 128-131: timeout
  let to1 : Option String :=
    match overrides.timeout with
    | some t => some (normalizeTimeout t)
    | none => t0.timeout
  -- lines 133-135: description
  let d1 : Option String :=
    match overrides.description with
    | some d => some d
    | none => base.description
  { template := some { containers := c3 :: cs0.drop 1, scaling := sc1, timeout := to1 }
    description := d1 }

/-! ## Validator (`validateConfig`, lines 147-231) -/

/-- One `{ field, message }` validation error. -/
structure VErr where
  field : String
  message : String
deriving DecidableEq, Repr

/-- The fixed cpu enumeration (line 23). -/
def VALID_CPUS : List String := ["1", "2", "4", "8"]

/-- The DNS-label regex `^[a-z0-9]([-a-z0-9]*[a-z0-9])?$` (line 152). -/
def dnsLabelOk (s : String) : Bool :=
  let isAl : Char → Bool := fun c => c.isLower || c.isDigit
  match s.toList with
  | [] => false
  | h :: t =>
    isAl h && isAl ((h :: t).getLast (by simp)) && (h :: t).all fun c => isAl c || c = '-'

/-- The memory regex `^\d+(Mi|Gi)$` (line 24). -/
def memOk (s : String) : Bool :=
  let l := s.toList
  let ds := l.takeWhile Char.isDigit
  let r := l.dropWhile Char.isDigit
  !ds.isEmpty && (r = ['M', 'i'] || r = ['G', 'i'])

/-- The `validateConfig` (lines 147-231): runs every check and aggregates all
violations in source order; the caller throws when the list is non-empty.
`serviceId`, `projectId` and `region` arrive as possibly-undefined strings
(the non-string `typeof` case is outside the string-typed model). -/
def validateConfig (serviceSpec : Spec) (serviceId projectId region : Option String) :
    List VErr :=
  let e1 : List VErr :=
    match serviceId with
    | none => [⟨"serviceName", "Service name is required"⟩]
    | some s =>
      if s = "" then [⟨"serviceName", "Service name is required"⟩]
      else if !dnsLabelOk s then
        [⟨"serviceName",
          "Service name must be DNS label (lowercase, numbers, hyphens, max 63 chars)"⟩]
      else []
  let e2 : List VErr :=
    if optBlank projectId then [⟨"projectId", "GCP project ID is required"⟩] else []
  let e3 : List VErr :=
    if optBlank region then [⟨"region", "Region is required"⟩] else []
  let e4 : List VErr :=
    match serviceSpec.template.bind fun t => t.containers.head? with
    | none => [⟨"template", "At least one container is required"⟩]
    | some c =>
      let i1 : List VErr :=
        if optBlank c.image then
          [⟨"containerImage", "Container image is required"⟩]
        else []
      let i2 : List VErr :=
        match c.resources.bind fun r => r.limits with
        | none => []
        | some limits =>
          let a :=
            match limits.cpu with
            | some cv =>
              if cv ≠ "" ∧ cv ∉ VALID_CPUS then
                [⟨"resources.cpu", "CPU must be one of: 1, 2, 4, 8"⟩]
              else []
            | none => []
          let b :=
            match limits.memory with
            | some mv =>
              if mv ≠ "" ∧ memOk mv = false then
                [⟨"resources.memory", "Memory must be e.g. 256Mi, 512Mi, 1Gi, 2Gi"⟩]
              else []
            | none => []
          a ++ b
      i1 ++ i2
  let e5 : List VErr :=
    match serviceSpec.template.bind fun t => t.scaling with
    | none => []
    | some sc =>
      let a :=
        match sc.minInstanceCount with
        | some m =>
          if m < 0 then [⟨"minInstances", "minInstanceCount must be a non-negative integer"⟩]
          else []
        | none => []
      let b :=
        match sc.maxInstanceCount with
        | some m =>
          if m < 0 then [⟨"maxInstances", "maxInstanceCount must be a non-negative integer"⟩]
          else []
        | none => []
      let cm :=
        match sc.minInstanceCount, sc.maxInstanceCount with
        | some m1, some m2 =>
          if m1 > m2 then [⟨"scaling", "minInstanceCount cannot exceed maxInstanceCount"⟩]
          else []
        | _, _ => []
      a ++ b ++ cm
  e1 ++ e2 ++ e3 ++ e4 ++ e5

/-! ## Error taxonomy (`src/utils/errors`, as used by this service) -/

/-- A raw JavaScript error surfaced by the transport client: its optional
gRPC status code and its message. -/
structure JsError where
  code : Option Nat
  message : String
deriving DecidableEq, Repr

/-- The domain errors this service throws: `BadRequestError`,
`ValidationError(list)`, `ApiError(message, status, code, hint)` and
`InternalError`; `unhandled` models a raw rejection that escapes the
`catch` block (an `updateService` failure inside it is not re-caught). -/
inductive DeployErr
  | badRequest (message : String)
  | validation (errors : List VErr)
  | apiError (message : String) (status : Nat) (code : String) (hint : String)
  | internalError (message : String)
  | unhandled (e : JsError)
deriving DecidableEq, Repr

/-- The constructor (error class) of a thrown error, forgetting its payload. -/
inductive ErrKind
  | badRequest
  | validation
  | apiError
  | internalError
  | unhandled
deriving DecidableEq, Repr

/-- Error class of a `DeployErr`. -/
def kindOf : DeployErr → ErrKind
  | .badRequest _ => .badRequest
  | .validation _ => .validation
  | .apiError _ _ _ _ => .apiError
  | .internalError _ => .internalError
  | .unhandled _ => .unhandled

/-- Error class of a `loadBaseTemplate`-style result, `none` on success. -/
def errKindAt (r : Except DeployErr Spec) : Option ErrKind :=
  match r with
  | .error e => some (kindOf e)
  | .ok _ => none

/-! ## Template store (`loadBaseTemplate`, lines 56-72) -/

/-- The `loadBaseTemplate` (lines 56-72).  The effectful parts are parameters:
`readRes` is the outcome of `fs.readFileSync` on the template path and
`parse` the outcome of `yaml.load` on the raw text.  Both failure modes are
wrapped in `InternalError`, with distinct message prefixes. -/
def loadBaseTemplate (readRes : Except JsError String)
    (parse : String → Except JsError Spec) : Except DeployErr Spec :=
  match readRes with
  | .error err => .error (.internalError ("Failed to load Cloud Run template: " ++ err.message))
  | .ok raw =>
    match parse raw with
    | .error err => .error (.internalError ("Invalid Cloud Run template YAML: " ++ err.message))
    | .ok spec => .ok spec

/-! ## Control-plane model

The remote Cloud Run control plane is an external collaborator, consumed (per
the spec) as a request → long-running-operation → resource-or-error contract.
It is modelled as a deterministic state machine over the set of existing
services keyed by fully-qualified name: `createService` fails with gRPC code 6
ALREADY_EXISTS when the name is taken (otherwise it assigns the service its
stable URL and records it), `updateService` replaces the stored spec and keeps
the URL; both fail when ambient credentials are absent; waiting on the
long-running operation is folded into the returned terminal response. -/

/-- A service recorded in the control plane: its spec and its stable URL. -/
structure StoredService where
  spec : ApiSpec
  uri : String
deriving DecidableEq, Repr

/-- Remote control-plane state: whether ambient credentials resolve, and the
services that exist, keyed by fully-qualified resource name. -/
structure Remote where
  creds : Bool
  services : List (String × StoredService)
deriving DecidableEq, Repr

/-- The terminal operation response for a service (fields the reconciler
reads: `uri`/`url`, `reconciling`, `latestReadyRevision`). -/
structure RemoteService where
  uri : Option String
  url : Option String
  reconciling : Bool
  latestReadyRevision : Option String
deriving DecidableEq, Repr

/-- Lookup of a service by fully-qualified name. -/
def lookupSvc : List (String × StoredService) → String → Option StoredService
  | [], _ => none
  | (k, v) :: t, n => if k = n then some v else lookupSvc t n

/-- Replacement (or insertion) of a service record by fully-qualified name. -/
def setSvc : List (String × StoredService) → String → StoredService →
    List (String × StoredService)
  | [], n, v => [(n, v)]
  | (k, w) :: t, n, v => if k = n then (n, v) :: t else (k, w) :: setSvc t n v

/-- The message of the transport error raised when ambient credentials are
absent. -/
def CREDS_MESSAGE : String := "Could not load the default credentials"

/-- The stable URL the control plane assigns to a service identity. -/
def mkUri (parent serviceId : String) : String :=
  "https://" ++ serviceId ++ "." ++ parent ++ ".run.app"

/-- The `runClient.createService` followed by `operation.promise()`: fails when
credentials are absent; fails with code 6 when the fully-qualified name
already exists; otherwise records the service and returns its terminal
response. -/
def createService (rm : Remote) (parent serviceId : String) (service : ApiSpec) :
    Except JsError (RemoteService × Remote) :=
  if rm.creds = false then .error ⟨none, CREDS_MESSAGE⟩
  else
    match lookupSvc rm.services (parent ++ "/services/" ++ serviceId) with
    | some _ => .error ⟨some 6, "Resource already exists"⟩
    | none =>
      .ok
        (⟨some (mkUri parent serviceId), none, false, some (serviceId ++ "-00001")⟩,
         ⟨rm.creds,
          (parent ++ "/services/" ++ serviceId,
           ⟨service, mkUri parent serviceId⟩) :: rm.services⟩)

/-- The `runClient.updateService` followed by `operation.promise()`: fails when
credentials are absent or the name does not exist; otherwise replaces the
stored spec, keeping the service URL stable. -/
def updateService (rm : Remote) (fullName : String) (service : ApiSpec) :
    Except JsError (RemoteService × Remote) :=
  if rm.creds = false then .error ⟨none, CREDS_MESSAGE⟩
  else
    match lookupSvc rm.services fullName with
    | none => .error ⟨some 5, "Resource not found"⟩
    | some st =>
      .ok
        (⟨some st.uri, none, false, some "updated-00002"⟩,
         ⟨rm.creds, setSvc rm.services fullName ⟨service, st.uri⟩⟩)

/-! ## Reconciler (`deploy`, lines 238-314) -/

/-- The `DeployResult` returned on success (lines 306-313). -/
structure DeployResult where
  status : String
  serviceUrl : String
  reconciling : Bool
  serviceName : String
  region : String
  latestReadyRevision : Option String
deriving DecidableEq, Repr

/-- Which reconciler branch produced the result (ghost information for the
idempotence property). -/
inductive DeployPath
  | created
  | updated
deriving DecidableEq, Repr

/-- A control-plane RPC issued by `deploy` (ghost trace). -/
inductive CpOp
  | create (parent serviceId : String) (service : ApiSpec)
  | update (fullName : String) (service : ApiSpec)
deriving DecidableEq, Repr

/-- The ambient configuration `deploy` consults: `config.cloudRun?.projectId`,
`config.cloudRun?.region`, `process.env.GCP_PROJECT_ID`,
`process.env.GCP_REGION`. -/
structure DeployConfig where
  cfgProjectId : Option String := none
  cfgRegion : Option String := none
  envProjectId : Option String := none
  envRegion : Option String := none
deriving DecidableEq, Repr

/-- The request body of `deploy`: identity fields plus the override fields
(`ov` collects the fields `applyOverrides` reads: containerImage, env,
resources, minInstances, maxInstances, timeout, description; the spread
`{...options, region, projectId}` adds only fields `applyOverrides`
ignores). -/
structure DeployOptions where
  serviceName : Option String := none
  serviceId : Option String := none
  projectId : Option String := none
  region : Option String := none
  ov : Overrides := {}
deriving DecidableEq, Repr

/-- Resolution of the target project (line 239-240). -/
def resolvedProjectId (cfg : DeployConfig) (opts : DeployOptions) : Option String :=
  jsCoalesce opts.projectId (jsCoalesce cfg.cfgProjectId cfg.envProjectId)

/-- Resolution of the target region (lines 241-242). -/
def regionOf (cfg : DeployConfig) (opts : DeployOptions) : String :=
  (jsCoalesce opts.region (jsCoalesce cfg.cfgRegion cfg.envRegion)).getD "europe-west1"

/-- The `options.serviceName || options.serviceId` (line 243). -/
def resolvedServiceId (opts : DeployOptions) : Option String :=
  jsOrOpt opts.serviceName opts.serviceId

/-- Success response assembly (lines 303-313). -/
def mkDeployResult (service : RemoteService) (serviceId region : String) : DeployResult :=
  let serviceUrl :=
    match service.uri with
    | some u => u
    | none => match service.url with | some u => u | none => ""
  { status := if service.reconciling then "RECONCILING" else "READY"
    serviceUrl := serviceUrl
    reconciling := service.reconciling
    serviceName := serviceId
    region := region
    latestReadyRevision := service.latestReadyRevision }

/-- The `BadRequestError` message of lines 246-248. -/
def BAD_PROJECT_MSG : String :=
  "GCP project ID is required. Set GCP_PROJECT_ID or pass projectId in the request body."

/-- The `ApiError` raised when credentials are missing (lines 290-295);
quotation marks of the original hint are dropped. -/
def CRED_ERR_MSG : String :=
  "Google Cloud credentials are not configured. Set up Application Default Credentials to deploy to Cloud Run."

/-- Remediation hint of the credentials `ApiError`. -/
def CRED_ERR_HINT : String :=
  "Run gcloud auth application-default login or set GOOGLE_APPLICATION_CREDENTIALS to a service account key file. See https://cloud.google.com/docs/authentication/getting-started"

/-- The `deploy` (lines 238-314).  The loaded base template is a parameter (the
template read is deterministic, see `loadBaseTemplate`); the remote state is
threaded explicitly and the list of issued control-plane operations is
returned alongside, with the branch tag of the successful path. -/
def deploy (cfg : DeployConfig) (base : Spec) (opts : DeployOptions) (rm : Remote) :
    Except DeployErr (DeployResult × DeployPath) × Remote × List CpOp :=
  let region := regionOf cfg opts
  let serviceId := resolvedServiceId opts
  match resolvedProjectId cfg opts with
  | none => (.error (.badRequest BAD_PROJECT_MSG), rm, [])
  | some p =>
    if jsTrim p = "" then (.error (.badRequest BAD_PROJECT_MSG), rm, [])
    else
      let serviceSpec := applyOverrides base opts.ov
      match validateConfig serviceSpec serviceId (some p) (some region) with
      | e :: es => (.error (.validation (e :: es)), rm, [])
      | [] =>
        let parent := "projects/" ++ p ++ "/locations/" ++ region
        let sid := jsStringU serviceId
        let apiSpec := toApiShape serviceSpec
        match createService rm parent sid apiSpec with
        | .ok (service, rm1) =>
          (.ok (mkDeployResult service sid region, .created), rm1,
           [.create parent sid apiSpec])
        | .error err =>
          if err.code = some 6 ∨ containsSub err.message "already exists" then
            let fullServiceName := parent ++ "/services/" ++ sid
            match updateService rm fullServiceName apiSpec with
            | .ok (service, rm1) =>
              (.ok (mkDeployResult service sid region, .updated), rm1,
               [.create parent sid apiSpec, .update fullServiceName apiSpec])
            | .error e2 =>
              (.error (.unhandled e2), rm,
               [.create parent sid apiSpec, .update fullServiceName apiSpec])
          else if containsSub err.message "Could not load the default credentials" ∨
              containsSub err.message "credentials" ∨
              containsSub err.message "authentication" then
            (.error (.apiError CRED_ERR_MSG 503 "GCP_CREDENTIALS_MISSING" CRED_ERR_HINT),
             rm, [.create parent sid apiSpec])
          else
            (.error (.internalError ("Cloud Run deployment failed: " ++ err.message)),
             rm, [.create parent sid apiSpec])

/-! ## Mutable-object-heap model of `applyOverrides`

To state that `applyOverrides` never mutates its `base` argument (the source
relies on `structuredClone` severing all aliasing before any write), the
function is embedded a second time over an explicit object heap: JavaScript
objects live at numeric addresses, field reads and writes go through the
heap, `structuredClone` allocates fresh addresses, and the merge body is the
line-by-line sequence of reads and writes of lines 80-138.  Arrays are
modelled as inline lists of values (the source never mutates an array in
place, it only replaces whole fields).  A write through a primitive-valued
field (silently ignored by sloppy-mode JavaScript) is modelled as failure;
the frame theorem is conditional on the program returning a result. -/

/-- An untyped JavaScript value: primitive, reference to a heap object, or an
inline array. -/
inductive JVal
  | s (v : String)
  | n (v : Int)
  | b (v : Bool)
  | null
  | undef
  | ref (a : Nat)
  | arr (elems : List JVal)

/-- A heap object: its named fields. -/
abbrev JObj : Type := List (String × JVal)

/-- The heap: a partial map from addresses to objects. -/
abbrev Heap : Type := Nat → Option JObj

/-- A heap computation: takes the heap and the next-fresh address, returns a
result, the new heap and the new next-fresh address (or fails). -/
def HProg (α : Type) : Type := Heap → Nat → Option (α × Heap × Nat)

/-- The `pure` of the heap monad. -/
def hPure (a : α) : HProg α := fun h c => some (a, h, c)

/-- The `bind` of the heap monad. -/
def hBind (p : HProg α) (f : α → HProg β) : HProg β := fun h c =>
  match p h c with
  | none => none
  | some (a, h2, c2) => f a h2 c2

instance : Monad HProg where
  pure := hPure
  bind := hBind

/-- Failure (a JavaScript `TypeError`, e.g. a member access through a
non-object). -/
def failH : HProg α := fun _ _ => none

/-- Field read of an object (`undefined` when the field is absent). -/
def jGet : JObj → String → JVal
  | [], _ => .undef
  | (k, v) :: t, q => if k = q then v else jGet t q

/-- Field write of an object (replace or append). -/
def jSet : JObj → String → JVal → JObj
  | [], q, w => [(q, w)]
  | (k, v) :: t, q, w => if k = q then (q, w) :: t else (k, v) :: jSet t q w

/-- Point update of the heap. -/
def hSet (h : Heap) (a : Nat) (o : JObj) : Heap := fun x => if x = a then some o else h x

/-- Read field `k` of the object at address `a`. -/
def getF (a : Nat) (k : String) : HProg JVal := fun h c =>
  match h a with
  | none => none
  | some o => some (jGet o k, h, c)

/-- Write field `k` of the object at address `a`. -/
def setF (a : Nat) (k : String) (v : JVal) : HProg Unit := fun h c =>
  match h a with
  | none => none
  | some o => some ((), hSet h a (jSet o k v), c)

/-- Allocate a fresh object with the given fields; returns its address. -/
def allocObj (fields : JObj) : HProg Nat := fun h c =>
  some (c, hSet h c fields, c + 1)

/-- Read the whole object at address `a` (used by the structural clone). -/
def readObjAddr (a : Nat) : HProg JObj := fun h c =>
  match h a with
  | none => none
  | some o => some (o, h, c)

/-- Cast a value to an object reference; member writes through anything else
fail. -/
def asRef (v : JVal) : HProg Nat := fun h c =>
  match v with
  | .ref a => some (a, h, c)
  | _ => none

/-- JavaScript truthiness of a value. -/
def jvTruthy : JVal → Bool
  | .s v => v ≠ ""
  | .n v => v ≠ 0
  | .b v => v
  | .null => false
  | .undef => false
  | .ref _ => true
  | .arr _ => true

/-- Strict string comparison `v === str` (after `String(...)` this can hold
only for string values, no primitive coercion reaches the placeholder). -/
def jvIsStrEq (v : JVal) (str : String) : Bool :=
  match v with
  | .s w => w = str
  | _ => false

/-- Clone of a list of values, left to right, with `g` cloning each
element. -/
def cloneListAux (g : JVal → HProg JVal) : List JVal → HProg (List JVal)
  | [] => hPure []
  | v :: vs =>
    hBind (g v) fun v2 =>
      hBind (cloneListAux g vs) fun vs2 => hPure (v2 :: vs2)

/-- The `structuredClone` of a value: primitives copy, arrays clone element-wise,
references allocate a fresh object holding clones of every field.  `fuel`
bounds the recursion depth (any tree-shaped input is cloned with enough
fuel). -/
def cloneVal : Nat → JVal → HProg JVal
  | 0, _ => failH
  | _ + 1, .s v => hPure (.s v)
  | _ + 1, .n v => hPure (.n v)
  | _ + 1, .b v => hPure (.b v)
  | _ + 1, .null => hPure .null
  | _ + 1, .undef => hPure .undef
  | f + 1, .arr l => hBind (cloneListAux (cloneVal f) l) fun vs => hPure (.arr vs)
  | f + 1, .ref a =>
    hBind (readObjAddr a) fun o =>
      hBind (cloneListAux (cloneVal f) (o.map Prod.snd)) fun vs =>
        hBind (allocObj ((o.map Prod.fst).zip vs)) fun c => hPure (.ref c)

/-- Lines 83: `if (!merged.template) merged.template = {};` then re-read the
field and use it as an object. -/
def ensureTemplateH (m : Nat) : HProg Nat :=
  hBind (getF m "template") fun tv =>
    hBind
      (if jvTruthy tv then hPure ()
       else hBind (allocObj []) fun a => setF m "template" (.ref a))
      fun _ =>
        hBind (getF m "template") fun tv2 => asRef tv2

/-- Lines 84-87: default the containers list when absent or empty, then take
`containers[0]` as the working container. -/
def ensureContainersH (t : Nat) : HProg Nat :=
  hBind (getF t "containers") fun cv =>
    let len := match cv with | .arr l => l.length | _ => 0
    hBind
      (if len = 0 then
        hBind (allocObj []) fun la =>
          hBind (allocObj [("limits", .ref la)]) fun ra =>
            hBind (allocObj [("image", .s ""), ("env", .arr []), ("resources", .ref ra)])
              fun ca => setF t "containers" (.arr [.ref ca])
      else hPure ())
      fun _ =>
        hBind (getF t "containers") fun cv2 =>
          match cv2 with
          | .arr (v :: _) => asRef v
          | _ => failH

/-- The third disjunct of the image chain on an untyped image value. -/
def tmplImgH (v : JVal) : Option JVal :=
  if jvTruthy v && !jvIsStrEq v PLACEHOLDER then some v else none

/-- Lines 89-99 on the heap: select the image (the explicit empty-string
override is falsy under `||` and falls through), write it when non-null, else
substitute the fallback when the template still holds the placeholder. -/
def applyImageH (o : Overrides) (c : Nat) : HProg Unit :=
  hBind (getF c "image") fun imgV =>
    let sel : Option JVal :=
      match o.containerImage with
      | some s => if s ≠ "" then some (.s s) else tmplImgH imgV
      | none => tmplImgH imgV
    match sel with
    | some v => setF c "image" v
    | none =>
      if jvIsStrEq imgV PLACEHOLDER then setF c "image" (.s FALLBACK_IMAGE) else hPure ()

/-- Allocation of the `{ name, value }` objects the env map creates. -/
def envAllocList : List EnvVar → HProg (List JVal)
  | [] => hPure []
  | v :: vs =>
    hBind (allocObj [("name", .s v.name), ("value", .s v.value)]) fun a =>
      hBind (envAllocList vs) fun rest => hPure (.ref a :: rest)

/-- Lines 101-107 on the heap: a non-empty env override replaces the whole
env list with freshly allocated `{ name, value }` objects. -/
def applyEnvH (o : Overrides) (c : Nat) : HProg Unit :=
  match o.env with
  | some l =>
    if l.length > 0 then
      hBind (envAllocList (l.map envEntryToVar)) fun vs => setF c "env" (.arr vs)
    else hPure ()
  | none => hPure ()

/-- Lines 109-118 on the heap: `container.resources = container.resources ||
{ limits: {} }`, then the same for `.limits`, then the individual writes. -/
def applyResourcesH (o : Overrides) (c : Nat) : HProg Unit :=
  match o.resources with
  | some r =>
    hBind (getF c "resources") fun rv =>
    hBind
      (if jvTruthy rv then hPure rv
       else
         hBind (allocObj []) fun la =>
           hBind (allocObj [("limits", .ref la)]) fun ra => hPure (JVal.ref ra))
      fun nrv =>
    hBind (setF c "resources" nrv) fun _ =>
    hBind (asRef nrv) fun ra =>
    hBind (getF ra "limits") fun lv =>
    hBind
      (if jvTruthy lv then hPure lv
       else hBind (allocObj []) fun a => hPure (JVal.ref a))
      fun nlv =>
    hBind (setF ra "limits" nlv) fun _ =>
    hBind (asRef nlv) fun la =>
    hBind
      (match r.cpu with
       | some cv => setF la "cpu" (.s cv)
       | none => hPure ())
      fun _ =>
    hBind
      (match r.memory with
       | some mv => setF la "memory" (.s mv)
       | none => hPure ())
      fun _ =>
    match r.cpuIdle with
    | some bv => setF ra "cpuIdle" (.b bv)
    | none => hPure ()
  | none => hPure ()

/-- Lines 120-126 on the heap: `merged.template.scaling = ... || {}` and the
individual bound writes. -/
def applyScalingH (o : Overrides) (t : Nat) : HProg Unit :=
  if o.minInstances.isSome ∨ o.maxInstances.isSome then
    hBind (getF t "scaling") fun sv =>
    hBind
      (if jvTruthy sv then hPure sv
       else hBind (allocObj []) fun a => hPure (JVal.ref a))
      fun nsv =>
    hBind (setF t "scaling" nsv) fun _ =>
    hBind (asRef nsv) fun sa =>
    hBind
      (match o.minInstances with
       | some m => setF sa "minInstanceCount" (.n m)
       | none => hPure ())
      fun _ =>
    match o.maxInstances with
    | some m => setF sa "maxInstanceCount" (.n m)
    | none => hPure ()
  else hPure ()

/-- Lines 128-131 on the heap. -/
def applyTimeoutH (o : Overrides) (t : Nat) : HProg Unit :=
  match o.timeout with
  | some tv => setF t "timeout" (.s (normalizeTimeout tv))
  | none => hPure ()

/-- Lines 133-135 on the heap. -/
def applyDescriptionH (o : Overrides) (m : Nat) : HProg Unit :=
  match o.description with
  | some d => setF m "description" (.s d)
  | none => hPure ()

/-- The `applyOverrides` (lines 80-138) as a heap program: clone the base value,
then perform every merge step through the clone; returns the merged root
address. -/
def applyOverridesH (o : Overrides) (fuel : Nat) (baseV : JVal) : HProg Nat :=
  hBind (cloneVal fuel baseV) fun mv =>
  hBind (asRef mv) fun m =>
  hBind (ensureTemplateH m) fun t =>
  hBind (ensureContainersH t) fun c =>
  hBind (applyImageH o c) fun _ =>
  hBind (applyEnvH o c) fun _ =>
  hBind (applyResourcesH o c) fun _ =>
  hBind (applyScalingH o t) fun _ =>
  hBind (applyTimeoutH o t) fun _ =>
  hBind (applyDescriptionH o m) fun _ =>
  hPure m

/-! ## Frame reasoning for the heap program -/

mutual
/-- Every reference occurring in the value points at or above address `n`. -/
def valGeB (n : Nat) : JVal → Bool
  | .ref a => n ≤ a
  | .arr l => valGeListB n l
  | _ => true

/-- The `valGeB` over a list of values. -/
def valGeListB (n : Nat) : List JVal → Bool
  | [] => true
  | v :: vs => valGeB n v && valGeListB n vs
end

/-- The fresh region of the heap (addresses `≥ n`) is closed: objects there
hold only references `≥ n`.  The base document lives strictly below `n`, so a
closed fresh region can never reach back into it. -/
def RegionClosed (n : Nat) (h : Heap) : Prop :=
  ∀ a, n ≤ a → ∀ o, h a = some o → ∀ kv ∈ o, valGeB n kv.2 = true

/-- Frame triple: whenever the program runs from a heap whose fresh region is
closed and a fresh counter `≥ n` and returns, it leaves every address below
`n` untouched, keeps the fresh region closed and the counter `≥ n`, and its
result satisfies `Q`. -/
def HT (n : Nat) (p : HProg α) (Q : α → Prop) : Prop :=
  ∀ h c, RegionClosed n h → n ≤ c → ∀ r h2 c2, p h c = some (r, h2, c2) →
    (∀ b, b < n → h2 b = h b) ∧ RegionClosed n h2 ∧ n ≤ c2 ∧ Q r

/-! ## Concrete instances used by the witnesses -/

/-- A base template whose container image is a concrete non-placeholder
value. -/
def c2base : Spec :=
  { template := some
      { containers :=
          [{ image := some "repo/base:1", env := [],
             resources := some { limits := some {} } }] } }

/-- A base template still holding the unresolved image placeholder. -/
def basePh : Spec :=
  { template := some { containers := [{ image := some PLACEHOLDER }] } }

/-- A base template shaped like the repository's
`templates/cloud-run-service.yaml`: placeholder image, default limits,
default scaling bounds, default timeout. -/
def demoBase : Spec :=
  { template := some
      { containers :=
          [{ image := some PLACEHOLDER, env := [],
             resources := some { limits := some { cpu := some "1", memory := some "512Mi" } } }]
        scaling := some { minInstanceCount := some 0, maxInstanceCount := some 3 }
        timeout := some "300s" } }

/-- A valid deploy request. -/
def demoOpts : DeployOptions :=
  { serviceName := some "demo-svc", projectId := some "proj",
    ov := { containerImage := some "repo/img:v1" } }

/-- A deploy request whose merged spec carries the invalid memory string
`"2GB"`. -/
def demoOptsBadMem : DeployOptions :=
  { serviceName := some "demo-svc", projectId := some "proj",
    ov := { containerImage := some "repo/img:v1",
            resources := some { memory := some "2GB" } } }

/-- An empty remote state with resolvable credentials. -/
def rm0 : Remote := { creds := true, services := [] }

/-- An empty remote state without credentials. -/
def rmNoCreds : Remote := { creds := false, services := [] }

/-- A concrete five-object base-template heap (spec at 0, template at 1,
container at 2, resources at 3, limits at 4). -/
def h8 : Heap := fun a =>
  if a = 0 then some [("template", .ref 1)]
  else if a = 1 then some [("containers", .arr [.ref 2]), ("timeout", .s "300s")]
  else if a = 2 then some [("image", .s "repo/base:1"), ("env", .arr []), ("resources", .ref 3)]
  else if a = 3 then some [("limits", .ref 4)]
  else if a = 4 then some [("memory", .s "512Mi")]
  else none

/-- Concrete overrides exercising image, scaling and timeout writes. -/
def ov8 : Overrides :=
  { containerImage := some "repo/img:v2", minInstances := some 1,
    timeout := some "45" }

theorem ht_pure {n : Nat} {a : α} {Q : α → Prop} (hq : Q a) : HT n (hPure a) Q := by
  intro h c hrc hc r h2 c2 hrun
  cases hrun
  exact ⟨fun _ _ => rfl, hrc, hc, hq⟩

theorem ht_fail {n : Nat} {Q : α → Prop} : HT n (failH : HProg α) Q := by
  intro h c _ _ r h2 c2 hrun
  cases hrun

theorem ht_bind {n : Nat} {p : HProg α} {f : α → HProg β} {Q : α → Prop} {R : β → Prop}
    (hp : HT n p Q) (hf : ∀ a, Q a → HT n (f a) R) : HT n (hBind p f) R := by
  intro h c hrc hc r h2 c2 hrun
  unfold hBind at hrun
  cases hpc : p h c with
  | none => rw [hpc] at hrun; cases hrun
  | some t =>
    obtain ⟨a, h1, c1⟩ := t
    rw [hpc] at hrun
    obtain ⟨hfr1, hrc1, hc1, hq⟩ := hp h c hrc hc a h1 c1 hpc
    obtain ⟨hfr2, hrc2, hc2, hr⟩ := hf a hq h1 c1 hrc1 hc1 r h2 c2 hrun
    exact ⟨fun b hb => (hfr2 b hb).trans (hfr1 b hb), hrc2, hc2, hr⟩

theorem ht_weaken {n : Nat} {p : HProg α} {Q R : α → Prop}
    (hp : HT n p Q) (hqr : ∀ a, Q a → R a) : HT n p R := by
  intro h c hrc hc r h2 c2 hrun
  obtain ⟨h1, h2', h3, h4⟩ := hp h c hrc hc r h2 c2 hrun
  exact ⟨h1, h2', h3, hqr r h4⟩

/-- Any value `jGet` returns is a field value of the object or `undefined`. -/
theorem jGet_cases (o : JObj) (k : String) :
    jGet o k = .undef ∨ ∃ q, (q, jGet o k) ∈ o := by
  induction o with
  | nil => exact Or.inl rfl
  | cons kv t ih =>
    obtain ⟨q, v⟩ := kv
    by_cases hk : q = k
    · refine Or.inr ⟨q, ?_⟩
      simp [jGet, hk]
    · have : jGet ((q, v) :: t) k = jGet t k := by simp [jGet, hk]
      rw [this]
      rcases ih with h | ⟨q2, hq2⟩
      · exact Or.inl h
      · exact Or.inr ⟨q2, List.mem_cons_of_mem _ hq2⟩

/-- Membership in a `jSet` result: the new binding or an old one. -/
theorem jSet_mem {o : JObj} {k : String} {v : JVal} {kv : String × JVal}
    (h : kv ∈ jSet o k v) : kv = (k, v) ∨ kv ∈ o := by
  induction o with
  | nil => simpa [jSet] using h
  | cons kw t ih =>
    obtain ⟨q, w⟩ := kw
    by_cases hk : q = k
    · simp only [jSet, hk, if_pos rfl] at h
      rcases List.mem_cons.1 h with h1 | h1
      · exact Or.inl h1
      · exact Or.inr (List.mem_cons_of_mem _ h1)
    · simp only [jSet, if_neg hk] at h
      rcases List.mem_cons.1 h with h1 | h1
      · exact Or.inr (List.mem_cons.2 (Or.inl h1))
      · rcases ih h1 with h2 | h2
        · exact Or.inl h2
        · exact Or.inr (List.mem_cons_of_mem _ h2)

theorem ht_getF {n a : Nat} {k : String} (ha : n ≤ a) :
    HT n (getF a k) (fun v => valGeB n v = true) := by
  intro h c hrc hc r h2 c2 hrun
  unfold getF at hrun
  cases hha : h a with
  | none => rw [hha] at hrun; cases hrun
  | some o =>
    rw [hha] at hrun
    cases hrun
    refine ⟨fun _ _ => rfl, hrc, hc, ?_⟩
    rcases jGet_cases o k with hu | ⟨q, hq⟩
    · rw [hu]; rfl
    · exact hrc a ha o hha (q, jGet o k) hq

theorem ht_setF {n a : Nat} {k : String} {v : JVal} (ha : n ≤ a)
    (hv : valGeB n v = true) : HT n (setF a k v) (fun _ => True) := by
  intro h c hrc hc r h2 c2 hrun
  unfold setF at hrun
  cases hha : h a with
  | none => rw [hha] at hrun; cases hrun
  | some o =>
    rw [hha] at hrun
    cases hrun
    refine ⟨?_, ?_, hc, trivial⟩
    · intro b hb
      have : b ≠ a := by omega
      simp [hSet, this]
    · intro a2 ha2 o2 ho2 kv hkv
      by_cases hab : a2 = a
      · subst hab
        have ho2' : jSet o k v = o2 := by simpa [hSet] using ho2
        rcases jSet_mem (ho2' ▸ hkv) with h1 | h1
        · subst h1; exact hv
        · exact hrc a2 ha2 o hha kv h1
      · have ho2' : h a2 = some o2 := by simpa [hSet, hab] using ho2
        exact hrc a2 ha2 o2 ho2' kv hkv

theorem ht_allocObj {n : Nat} {fields : JObj}
    (hf : ∀ kv ∈ fields, valGeB n kv.2 = true) :
    HT n (allocObj fields) (fun r => n ≤ r) := by
  intro h c hrc hc r h2 c2 hrun
  unfold allocObj at hrun
  cases hrun
  refine ⟨?_, ?_, by omega, hc⟩
  · intro b hb
    have : b ≠ c := by omega
    simp [hSet, this]
  · intro a2 ha2 o2 ho2 kv hkv
    by_cases hac : a2 = c
    · subst hac
      have : fields = o2 := by simpa [hSet] using ho2
      exact hf kv (this ▸ hkv)
    · have ho2' : h a2 = some o2 := by simpa [hSet, hac] using ho2
      exact hrc a2 ha2 o2 ho2' kv hkv

theorem ht_readObjAddr {n a : Nat} : HT n (readObjAddr a) (fun _ => True) := by
  intro h c hrc hc r h2 c2 hrun
  unfold readObjAddr at hrun
  cases hha : h a with
  | none => rw [hha] at hrun; cases hrun
  | some o =>
    rw [hha] at hrun
    cases hrun
    exact ⟨fun _ _ => rfl, hrc, hc, trivial⟩

theorem ht_asRef {n : Nat} {v : JVal} (hv : valGeB n v = true) :
    HT n (asRef v) (fun r => n ≤ r) := by
  intro h c hrc hc r h2 c2 hrun
  unfold asRef at hrun
  cases v with
  | ref a =>
    cases hrun
    exact ⟨fun _ _ => rfl, hrc, hc, by simpa [valGeB] using hv⟩
  | s w => cases hrun
  | n w => cases hrun
  | b w => cases hrun
  | null => cases hrun
  | undef => cases hrun
  | arr l => cases hrun

theorem valGeListB_mem {n : Nat} {l : List JVal} (h : valGeListB n l = true) :
    ∀ v ∈ l, valGeB n v = true := by
  induction l with
  | nil => intro v hv; cases hv
  | cons w t ih =>
    simp only [valGeListB, Bool.and_eq_true] at h
    intro v hv
    rcases List.mem_cons.1 hv with h1 | h1
    · subst h1; exact h.1
    · exact ih h.2 v h1

theorem valGeListB_of_mem {n : Nat} {l : List JVal}
    (h : ∀ v ∈ l, valGeB n v = true) : valGeListB n l = true := by
  induction l with
  | nil => rfl
  | cons w t ih =>
    simp only [valGeListB, Bool.and_eq_true]
    exact ⟨h w (List.mem_cons_self w t), ih fun v hv => h v (List.mem_cons_of_mem _ hv)⟩

theorem ht_cloneListAux {n : Nat} {g : JVal → HProg JVal}
    (hg : ∀ v, HT n (g v) (fun v2 => valGeB n v2 = true)) :
    ∀ l, HT n (cloneListAux g l) (fun l2 => valGeListB n l2 = true) := by
  intro l
  induction l with
  | nil => exact ht_pure rfl
  | cons w t ih =>
    show HT n (hBind (g w) _) _
    refine ht_bind (hg w) fun v2 hv2 => ?_
    refine ht_bind ih fun vs2 hvs2 => ht_pure ?_
    simp [valGeListB, hv2, hvs2]

theorem ht_cloneVal {n : Nat} : ∀ (f : Nat) (v : JVal),
    HT n (cloneVal f v) (fun v2 => valGeB n v2 = true) := by
  intro f
  induction f with
  | zero =>
    intro v
    cases v <;> exact ht_fail
  | succ f ih =>
    intro v
    cases v with
    | s w => exact ht_pure rfl
    | n w => exact ht_pure rfl
    | b w => exact ht_pure rfl
    | null => exact ht_pure rfl
    | undef => exact ht_pure rfl
    | arr l =>
      show HT n (hBind (cloneListAux (cloneVal f) l) _) _
      refine ht_bind (ht_cloneListAux ih l) fun vs hvs => ht_pure ?_
      simpa [valGeB] using hvs
    | ref a =>
      show HT n (hBind (readObjAddr a) _) _
      refine ht_bind ht_readObjAddr fun o _ => ?_
      refine ht_bind (ht_cloneListAux ih _) fun vs hvs => ?_
      refine ht_bind (ht_allocObj ?_) fun c hc => ht_pure ?_
      · intro kv hkv
        exact valGeListB_mem hvs kv.2 (List.of_mem_zip hkv).2
      · simpa [valGeB] using hc

theorem tmplImgH_eq {v w : JVal} (h : tmplImgH v = some w) : w = v := by
  unfold tmplImgH at h
  split at h
  · cases h; rfl
  · cases h

theorem ht_ensureTemplateH {n m : Nat} (hm : n ≤ m) :
    HT n (ensureTemplateH m) (fun t => n ≤ t) := by
  unfold ensureTemplateH
  refine ht_bind (ht_getF hm) fun tv _ => ?_
  refine ht_bind (Q := fun _ => True) ?_ fun _ _ => ?_
  · split
    · exact ht_pure trivial
    · refine ht_bind (ht_allocObj ?_) fun a ha => ht_setF hm ?_
      · intro kv hkv; cases hkv
      · simpa [valGeB] using ha
  · exact ht_bind (ht_getF hm) fun tv2 htv2 => ht_asRef htv2

theorem ht_ensureContainersH {n t : Nat} (ht : n ≤ t) :
    HT n (ensureContainersH t) (fun c => n ≤ c) := by
  unfold ensureContainersH
  refine ht_bind (ht_getF ht) fun cv _ => ?_
  refine ht_bind (Q := fun _ => True) ?_ fun _ _ => ?_
  · split
    · refine ht_bind (ht_allocObj ?_) fun la hla => ?_
      · intro kv hkv; cases hkv
      refine ht_bind (ht_allocObj ?_) fun ra hra => ?_
      · intro kv hkv
        rcases List.mem_singleton.1 hkv with rfl
        simpa [valGeB] using hla
      refine ht_bind (ht_allocObj ?_) fun ca hca => ?_
      · intro kv hkv
        simp only [List.mem_cons, List.not_mem_nil, or_false] at hkv
        rcases hkv with rfl | rfl | rfl
        · rfl
        · rfl
        · simpa [valGeB] using hra
      refine ht_setF ht ?_
      simpa [valGeB, valGeListB] using hca
    · exact ht_pure trivial
  · refine ht_bind (ht_getF ht) fun cv2 hcv2 => ?_
    cases cv2 with
    | arr l =>
      cases l with
      | nil => exact ht_fail
      | cons v rest =>
        refine ht_asRef ?_
        have : valGeListB n (v :: rest) = true := by simpa [valGeB] using hcv2
        exact valGeListB_mem this v (List.mem_cons_self v rest)
    | s w => exact ht_fail
    | n w => exact ht_fail
    | b w => exact ht_fail
    | null => exact ht_fail
    | undef => exact ht_fail
    | ref a => exact ht_fail

theorem ht_applyImageH {n c : Nat} (o : Overrides) (hc : n ≤ c) :
    HT n (applyImageH o c) (fun _ => True) := by
  unfold applyImageH
  refine ht_bind (ht_getF hc) fun imgV himg => ?_
  have hfall : HT n
      (if jvIsStrEq imgV PLACEHOLDER then setF c "image" (.s FALLBACK_IMAGE)
       else pure ()) (fun _ => True) := by
    split
    · exact ht_setF hc rfl
    · exact ht_pure trivial
  cases hov : o.containerImage with
  | none =>
    cases htm : tmplImgH imgV with
    | none => simpa [htm] using hfall
    | some w =>
      have hw : valGeB n w = true := tmplImgH_eq htm ▸ himg
      simpa [htm] using ht_setF hc hw
  | some s =>
    by_cases hs : s = ""
    · subst hs
      simp only [ne_eq, not_true_eq_false, if_false]
      cases htm : tmplImgH imgV with
      | none => simpa [htm] using hfall
      | some w =>
        have hw : valGeB n w = true := tmplImgH_eq htm ▸ himg
        simpa [htm] using ht_setF hc hw
    · simpa [hs] using ht_setF (v := JVal.s s) hc rfl

theorem ht_envAllocList {n : Nat} (l : List EnvVar) :
    HT n (envAllocList l) (fun vs => valGeListB n vs = true) := by
  induction l with
  | nil => exact ht_pure rfl
  | cons v vs ih =>
    show HT n (hBind _ _) _
    refine ht_bind (ht_allocObj ?_) fun a ha => ?_
    · intro kv hkv
      simp only [List.mem_cons, List.not_mem_nil, or_false] at hkv
      rcases hkv with rfl | rfl <;> rfl
    refine ht_bind ih fun rest hrest => ht_pure ?_
    have : valGeB n (.ref a) = true := by simpa [valGeB] using ha
    simp [valGeListB, this, hrest]

theorem ht_applyEnvH {n c : Nat} (o : Overrides) (hc : n ≤ c) :
    HT n (applyEnvH o c) (fun _ => True) := by
  unfold applyEnvH
  rcases he : o.env with _ | l
  · simp only [he]
    exact ht_pure trivial
  · simp only [he]
    by_cases hl : l.length > 0
    · rw [if_pos hl]
      refine ht_bind (ht_envAllocList _) fun vs hvs => ht_setF hc ?_
      simpa [valGeB] using hvs
    · rw [if_neg hl]
      exact ht_pure trivial

theorem ht_applyResourcesH {n c : Nat} (o : Overrides) (hc : n ≤ c) :
    HT n (applyResourcesH o c) (fun _ => True) := by
  unfold applyResourcesH
  cases o.resources with
  | none => exact ht_pure trivial
  | some r =>
    refine ht_bind (ht_getF hc) fun rv hrv => ?_
    refine ht_bind (Q := fun v => valGeB n v = true) ?_ fun nrv hnrv => ?_
    · split
      · exact ht_pure hrv
      · refine ht_bind (ht_allocObj ?_) fun la hla => ?_
        · intro kv hkv; cases hkv
        refine ht_bind (ht_allocObj ?_) fun ra hra => ht_pure ?_
        · intro kv hkv
          rcases List.mem_singleton.1 hkv with rfl
          simpa [valGeB] using hla
        · simpa [valGeB] using hra
    refine ht_bind (ht_setF hc hnrv) fun _ _ => ?_
    refine ht_bind (ht_asRef hnrv) fun ra hra => ?_
    refine ht_bind (ht_getF hra) fun lv hlv => ?_
    refine ht_bind (Q := fun v => valGeB n v = true) ?_ fun nlv hnlv => ?_
    · split
      · exact ht_pure hlv
      · refine ht_bind (ht_allocObj ?_) fun la hla => ht_pure ?_
        · intro kv hkv; cases hkv
        · simpa [valGeB] using hla
    refine ht_bind (ht_setF hra hnlv) fun _ _ => ?_
    refine ht_bind (ht_asRef hnlv) fun la hla => ?_
    refine ht_bind (Q := fun _ => True) ?_ fun _ _ => ?_
    · cases r.cpu with
      | none => exact ht_pure trivial
      | some cv => exact ht_setF hla rfl
    refine ht_bind (Q := fun _ => True) ?_ fun _ _ => ?_
    · cases r.memory with
      | none => exact ht_pure trivial
      | some mv => exact ht_setF hla rfl
    cases r.cpuIdle with
    | none => exact ht_pure trivial
    | some bv => exact ht_setF hra rfl

theorem ht_applyScalingH {n t : Nat} (o : Overrides) (ht : n ≤ t) :
    HT n (applyScalingH o t) (fun _ => True) := by
  unfold applyScalingH
  split
  · refine ht_bind (ht_getF ht) fun sv hsv => ?_
    refine ht_bind (Q := fun v => valGeB n v = true) ?_ fun nsv hnsv => ?_
    · split
      · exact ht_pure hsv
      · refine ht_bind (ht_allocObj ?_) fun a ha => ht_pure ?_
        · intro kv hkv; cases hkv
        · simpa [valGeB] using ha
    refine ht_bind (ht_setF ht hnsv) fun _ _ => ?_
    refine ht_bind (ht_asRef hnsv) fun sa hsa => ?_
    refine ht_bind (Q := fun _ => True) ?_ fun _ _ => ?_
    · cases o.minInstances with
      | none => exact ht_pure trivial
      | some m => exact ht_setF hsa rfl
    cases o.maxInstances with
    | none => exact ht_pure trivial
    | some m => exact ht_setF hsa rfl
  · exact ht_pure trivial

theorem ht_applyTimeoutH {n t : Nat} (o : Overrides) (ht : n ≤ t) :
    HT n (applyTimeoutH o t) (fun _ => True) := by
  unfold applyTimeoutH
  cases o.timeout with
  | none => exact ht_pure trivial
  | some tv => exact ht_setF ht rfl

theorem ht_applyDescriptionH {n m : Nat} (o : Overrides) (hm : n ≤ m) :
    HT n (applyDescriptionH o m) (fun _ => True) := by
  unfold applyDescriptionH
  cases o.description with
  | none => exact ht_pure trivial
  | some d => exact ht_setF hm rfl

theorem ht_applyOverridesH {n : Nat} (o : Overrides) (fuel : Nat) (v : JVal) :
    HT n (applyOverridesH o fuel v) (fun m => n ≤ m) := by
  unfold applyOverridesH
  refine ht_bind (ht_cloneVal fuel v) fun mv hmv => ?_
  refine ht_bind (ht_asRef hmv) fun m hm => ?_
  refine ht_bind (ht_ensureTemplateH hm) fun t ht2 => ?_
  refine ht_bind (ht_ensureContainersH ht2) fun c hc2 => ?_
  refine ht_bind (ht_applyImageH o hc2) fun _ _ => ?_
  refine ht_bind (ht_applyEnvH o hc2) fun _ _ => ?_
  refine ht_bind (ht_applyResourcesH o hc2) fun _ _ => ?_
  refine ht_bind (ht_applyScalingH o ht2) fun _ _ => ?_
  refine ht_bind (ht_applyTimeoutH o ht2) fun _ _ => ?_
  exact ht_bind (ht_applyDescriptionH o hm) fun _ _ => ht_pure hm

/-! ## Claim theorems -/

/-- C5: the duration adapter converts timeout strings to a
`{seconds, nanos}` pair as specified: `"300s"` gives `{300, 0}`, the bare
integer `"45"` gives `{45, 0}` (bare integers are seconds), and `"1.250s"`
gives `{1, 250000000}`. -/
theorem c5_duration_adapter :
    parseTimeoutToDuration "300s" = ⟨300, 0⟩ ∧
    parseTimeoutToDuration "45" = ⟨45, 0⟩ ∧
    parseTimeoutToDuration "1.250s" = ⟨1, 250000000⟩ := by decide

/-- C2 (failing input): merging an explicit empty-string `containerImage`
override onto a base template whose image is `"repo/base:1"` keeps the
template image; the empty string is not honoured as a "clear" value, because
the middle disjunct of the `||` chain at line 91 is itself falsy. -/
theorem c2_empty_image_override_ignored :
    ((applyOverrides c2base { containerImage := some "" }).template.bind
      fun t => t.containers.head?.bind fun c => c.image) = some "repo/base:1" ∧
    ((applyOverrides c2base { containerImage := some "" }).template.bind
      fun t => t.containers.head?.bind fun c => c.image) ≠ some "" := by decide

/-- C6 (counterexample): both failure modes of `loadBaseTemplate` surface the
same error class (`InternalError`); an unreadable template and an unparsable
template do not produce distinct error kinds. -/
theorem c6_counterexample :
    errKindAt (loadBaseTemplate (.error ⟨none, "ENOENT"⟩)
        (fun _ => .error ⟨none, "bad mapping"⟩)) =
      errKindAt (loadBaseTemplate (.ok "x")
        (fun _ => .error ⟨none, "bad mapping"⟩)) := by rfl

/-- C6 (amended): `loadBaseTemplate` distinguishes its two failure modes only
by message, not by error class: a read failure yields an `InternalError`
whose message is prefixed `"Failed to load Cloud Run template: "`, a parse
failure an `InternalError` prefixed `"Invalid Cloud Run template YAML: "`. -/
theorem c6_load_failure_messages
    (e : JsError) (raw : String) (parse : String → Except JsError Spec) (e2 : JsError)
    (hp : parse raw = .error e2) :
    loadBaseTemplate (.error e) parse =
      .error (.internalError ("Failed to load Cloud Run template: " ++ e.message)) ∧
    loadBaseTemplate (.ok raw) parse =
      .error (.internalError ("Invalid Cloud Run template YAML: " ++ e2.message)) := by
  refine ⟨rfl, ?_⟩
  show (match parse raw with
    | Except.error err =>
      Except.error (DeployErr.internalError ("Invalid Cloud Run template YAML: " ++ err.message))
    | Except.ok spec => Except.ok spec) = _
  rw [hp]

/-- Witness for the amended C6 theorem at concrete failures. -/
theorem c6_load_failure_messages_witness :
    loadBaseTemplate (.error ⟨none, "ENOENT"⟩)
        (fun _ => .error ⟨none, "bad mapping"⟩) =
      .error (.internalError "Failed to load Cloud Run template: ENOENT") ∧
    loadBaseTemplate (.ok "x") (fun _ => .error ⟨none, "bad mapping"⟩) =
      .error (.internalError "Invalid Cloud Run template YAML: bad mapping") :=
  c6_load_failure_messages ⟨none, "ENOENT"⟩ "x"
    (fun _ => .error ⟨none, "bad mapping"⟩) ⟨none, "bad mapping"⟩ rfl

/-- C7 (counterexample): merging no overrides onto a base template that still
holds the image placeholder is not the identity — the placeholder is replaced
by the fallback image. -/
theorem c7_counterexample : applyOverrides basePh {} ≠ basePh := by decide

/-- C7 (amended): merging no overrides is the identity for every base
template that has a template section with at least one container whose image
is not the unresolved placeholder (for a placeholder image the source
substitutes the fallback, see the counterexample). -/
theorem c7_merge_empty_identity
    (base : Spec) (t : Template) (c : Container) (cs : List Container)
    (hb : base.template = some t) (hc : t.containers = c :: cs)
    (himg : c.image ≠ some PLACEHOLDER) :
    applyOverrides base {} = base := by
  obtain ⟨bt, bd⟩ := base
  simp only [Spec.template] at hb
  subst hb
  obtain ⟨tcs, tsc, tto⟩ := t
  simp only [Template.containers] at hc
  subst hc
  unfold applyOverrides
  simp only [Option.getD_some]
  simp only [List.length_cons, Nat.succ_ne_zero, if_false, List.headD_cons, List.drop_one,
    List.tail_cons]
  rcases hci : c.image with _ | i
  · simp [selectImage, imageFromTemplate, hci]
  · by_cases hi : i = ""
    · subst hi
      simp only [selectImage, imageFromTemplate, hci]
      simp [hci, PLACEHOLDER]
    · have hip : i ≠ PLACEHOLDER := fun h => himg (by rw [hci, h])
      simp only [selectImage, imageFromTemplate, hci]
      simp only [ne_eq, hi, not_false_iff, hip, and_true, if_true]
      obtain ⟨ci2, ce, cr⟩ := c
      simp only [Container.image] at hci
      subst hci
      simp

/-- Witness for the amended C7 theorem at a concrete resolved base. -/
theorem c7_merge_empty_identity_witness :
    applyOverrides c2base {} = c2base :=
  c7_merge_empty_identity c2base _ _ _ rfl rfl (by decide)

/-- C4: validation precedes any network interaction — whenever the merged
spec fails validation, `deploy` returns the `ValidationError` carrying the
full violation list, issues no control-plane operation and leaves the remote
state untouched. -/
theorem c4_validation_before_network
    (cfg : DeployConfig) (base : Spec) (opts : DeployOptions) (rm : Remote)
    (p : String) (e : VErr) (es : List VErr)
    (hp : resolvedProjectId cfg opts = some p)
    (hpb : jsTrim p ≠ "")
    (hv : validateConfig (applyOverrides base opts.ov) (resolvedServiceId opts) (some p)
        (some (regionOf cfg opts)) = e :: es) :
    deploy cfg base opts rm = (.error (.validation (e :: es)), rm, []) := by
  unfold deploy
  simp only [hp, if_neg hpb, hv]

/-- Witness for C4: a request with `resources.memory = "2GB"` is rejected
with a `ValidationError` citing `resources.memory`, before any control-plane
call. -/
theorem c4_validation_before_network_witness :
    deploy {} demoBase demoOptsBadMem rm0 =
      (.error (.validation
        [⟨"resources.memory", "Memory must be e.g. 256Mi, 512Mi, 1Gi, 2Gi"⟩]), rm0, []) :=
  c4_validation_before_network {} demoBase demoOptsBadMem rm0 "proj"
    ⟨"resources.memory", "Memory must be e.g. 256Mi, 512Mi, 1Gi, 2Gi"⟩ []
    (by decide) (by decide) (by decide)

/-- C9: when the control-plane call fails because ambient credentials are
absent, `deploy` surfaces an `ApiError` with HTTP status 503, the code
`GCP_CREDENTIALS_MISSING` and a remediation hint — a classification distinct
from the generic `InternalError`. -/
theorem c9_credential_classification
    (cfg : DeployConfig) (base : Spec) (opts : DeployOptions) (rm : Remote) (p : String)
    (hp : resolvedProjectId cfg opts = some p)
    (hpb : jsTrim p ≠ "")
    (hv : validateConfig (applyOverrides base opts.ov) (resolvedServiceId opts) (some p)
        (some (regionOf cfg opts)) = [])
    (hcred : rm.creds = false) :
    deploy cfg base opts rm =
      (.error (.apiError CRED_ERR_MSG 503 "GCP_CREDENTIALS_MISSING" CRED_ERR_HINT), rm,
       [.create ("projects/" ++ p ++ "/locations/" ++ regionOf cfg opts)
          (jsStringU (resolvedServiceId opts)) (toApiShape (applyOverrides base opts.ov))]) := by
  have h1 : containsSub CREDS_MESSAGE "already exists" = false := by decide
  have h2 : containsSub CREDS_MESSAGE "Could not load the default credentials" = true := by decide
  unfold deploy
  simp only [hp, if_neg hpb, hv]
  unfold createService
  simp only [hcred, if_true]
  simp [h1, h2]

/-- Witness for C9 at a concrete valid request against a credential-less
remote. -/
theorem c9_credential_classification_witness :
    deploy {} demoBase demoOpts rmNoCreds =
      (.error (.apiError CRED_ERR_MSG 503 "GCP_CREDENTIALS_MISSING" CRED_ERR_HINT),
       rmNoCreds,
       [.create "projects/proj/locations/europe-west1" "demo-svc"
          (toApiShape (applyOverrides demoBase demoOpts.ov))]) :=
  c9_credential_classification {} demoBase demoOpts rmNoCreds "proj"
    (by decide) (by decide) (by decide) rfl

/-- Lookup after inserting a fresh service record. -/
theorem lookupSvc_cons_self (l : List (String × StoredService)) (k : String) (v : StoredService) :
    lookupSvc ((k, v) :: l) k = some v := by simp [lookupSvc]

/-- Lookup after replacing a service record. -/
theorem lookupSvc_setSvc_self (l : List (String × StoredService)) (k : String) (v : StoredService) :
    lookupSvc (setSvc l k v) k = some v := by
  induction l with
  | nil => simp [setSvc, lookupSvc]
  | cons kv t ih =>
    obtain ⟨k2, w⟩ := kv
    by_cases h : k2 = k
    · simp [setSvc, h, lookupSvc]
    · simp [setSvc, h, lookupSvc, ih]

/-- A valid deploy against a remote state not holding the service identity
takes the create branch: the service is recorded under its fully-qualified
name and the result carries the control-plane-assigned URL. -/
theorem deploy_create_case
    (cfg : DeployConfig) (base : Spec) (opts : DeployOptions) (rm : Remote)
    (p region sid parent full : String) (api : ApiSpec) (u : String)
    (hregion : region = regionOf cfg opts)
    (hsid : sid = jsStringU (resolvedServiceId opts))
    (hparent : parent = "projects/" ++ p ++ "/locations/" ++ region)
    (hfull : full = parent ++ "/services/" ++ sid)
    (hapi : api = toApiShape (applyOverrides base opts.ov))
    (hu : u = mkUri parent sid)
    (hp : resolvedProjectId cfg opts = some p)
    (hpb : jsTrim p ≠ "")
    (hv : validateConfig (applyOverrides base opts.ov) (resolvedServiceId opts) (some p)
        (some (regionOf cfg opts)) = [])
    (hcred : rm.creds = true)
    (hlook : lookupSvc rm.services full = none) :
    deploy cfg base opts rm =
      (.ok (mkDeployResult ⟨some u, none, false, some (sid ++ "-00001")⟩ sid region, .created),
       ⟨true, (full, ⟨api, u⟩) :: rm.services⟩, [.create parent sid api]) := by
  subst hregion hsid hparent hfull hapi hu
  unfold deploy
  simp only [hp, if_neg hpb, hv]
  unfold createService
  rw [hcred, if_neg (by simp : ¬((true = false) : Prop))]
  rw [hlook]

/-- A valid deploy against a remote state already holding the service
identity falls from the failed create (code 6 ALREADY_EXISTS) into the update
branch addressed to the fully-qualified name, keeping the stored URL. -/
theorem deploy_update_case
    (cfg : DeployConfig) (base : Spec) (opts : DeployOptions) (rm : Remote)
    (p region sid parent full : String) (api : ApiSpec) (st0 : StoredService)
    (hregion : region = regionOf cfg opts)
    (hsid : sid = jsStringU (resolvedServiceId opts))
    (hparent : parent = "projects/" ++ p ++ "/locations/" ++ region)
    (hfull : full = parent ++ "/services/" ++ sid)
    (hapi : api = toApiShape (applyOverrides base opts.ov))
    (hp : resolvedProjectId cfg opts = some p)
    (hpb : jsTrim p ≠ "")
    (hv : validateConfig (applyOverrides base opts.ov) (resolvedServiceId opts) (some p)
        (some (regionOf cfg opts)) = [])
    (hcred : rm.creds = true)
    (hlook : lookupSvc rm.services full = some st0) :
    deploy cfg base opts rm =
      (.ok (mkDeployResult ⟨some st0.uri, none, false, some "updated-00002"⟩ sid region, .updated),
       ⟨true, setSvc rm.services full ⟨api, st0.uri⟩⟩,
       [.create parent sid api, .update full api]) := by
  subst hregion hsid hparent hfull hapi
  unfold deploy
  simp only [hp, if_neg hpb, hv]
  unfold createService updateService
  rw [hcred, if_neg (by simp : ¬((true = false) : Prop)),
      if_neg (by simp : ¬((true = false) : Prop))]
  simp only [hlook]
  rw [if_pos (Or.inl trivial)]

/-- C1: `deploy` is an idempotent create-or-replace.  For every valid input
(resolvable project, empty violation list, resolvable credentials), a first
successful `deploy` leaves the identity registered, and running the identical
input again routes through the update branch (create reports the identity
exists, the request is resubmitted as an update addressed to the
fully-qualified name) and returns a `DeployResult` with the same `serviceUrl`
and `serviceName`. -/
theorem c1_deploy_idempotent
    (cfg : DeployConfig) (base : Spec) (opts : DeployOptions) (rm : Remote) (p : String)
    (hp : resolvedProjectId cfg opts = some p)
    (hpb : jsTrim p ≠ "")
    (hv : validateConfig (applyOverrides base opts.ov) (resolvedServiceId opts) (some p)
        (some (regionOf cfg opts)) = [])
    (hcred : rm.creds = true) :
    ∃ d1 q1 st1 tr1 d2 st2 tr2,
      deploy cfg base opts rm = (.ok (d1, q1), st1, tr1) ∧
      deploy cfg base opts st1 = (.ok (d2, .updated), st2, tr2) ∧
      d2.serviceUrl = d1.serviceUrl ∧ d2.serviceName = d1.serviceName := by
  rcases hlook : lookupSvc rm.services
      ("projects/" ++ p ++ "/locations/" ++ regionOf cfg opts ++ "/services/" ++
        jsStringU (resolvedServiceId opts)) with _ | st0
  · have e1 := deploy_create_case cfg base opts rm p _ _ _ _ _ _
      rfl rfl rfl rfl rfl rfl hp hpb hv hcred hlook
    have e2 := deploy_update_case cfg base opts
      ⟨true,
       ("projects/" ++ p ++ "/locations/" ++ regionOf cfg opts ++ "/services/" ++
          jsStringU (resolvedServiceId opts),
        ⟨toApiShape (applyOverrides base opts.ov),
         mkUri ("projects/" ++ p ++ "/locations/" ++ regionOf cfg opts)
           (jsStringU (resolvedServiceId opts))⟩) :: rm.services⟩
      p _ _ _ _ _ _ rfl rfl rfl rfl rfl hp hpb hv rfl
      (lookupSvc_cons_self _ _ _)
    exact ⟨_, _, _, _, _, _, _, e1, e2, rfl, rfl⟩
  · have e1 := deploy_update_case cfg base opts rm p _ _ _ _ _ st0
      rfl rfl rfl rfl rfl hp hpb hv hcred hlook
    have e2 := deploy_update_case cfg base opts
      ⟨true,
       setSvc rm.services
         ("projects/" ++ p ++ "/locations/" ++ regionOf cfg opts ++ "/services/" ++
           jsStringU (resolvedServiceId opts))
         ⟨toApiShape (applyOverrides base opts.ov), st0.uri⟩⟩
      p _ _ _ _ _ _ rfl rfl rfl rfl rfl hp hpb hv rfl
      (lookupSvc_setSvc_self _ _ _)
    exact ⟨_, _, _, _, _, _, _, e1, e2, rfl, rfl⟩

/-- Witness for C1 at a concrete valid request against an empty remote. -/
theorem c1_deploy_idempotent_witness :
    ∃ d1 q1 st1 tr1 d2 st2 tr2,
      deploy {} demoBase demoOpts rm0 = (.ok (d1, q1), st1, tr1) ∧
      deploy {} demoBase demoOpts st1 = (.ok (d2, .updated), st2, tr2) ∧
      d2.serviceUrl = d1.serviceUrl ∧ d2.serviceName = d1.serviceName :=
  c1_deploy_idempotent {} demoBase demoOpts rm0 "proj"
    (by decide) (by decide) (by decide) rfl

/-- C3: validation never short-circuits.  For every merged spec and identity
violating three independent rules at once — a non-empty serviceName failing
the DNS grammar, a non-empty memory string failing the memory pattern, and
min greater than max instance counts (with the other checks passing) —
`validateConfig` returns exactly the three corresponding `ValidationError`
entries, in source order. -/
theorem c3_validation_reports_all
    (sid p r img mem : String) (cpu : Option String) (envl : List EnvVar)
    (ci : Option Bool) (rest : List Container) (mi ma : Int) (d to2 : Option String)
    (hsid : sid ≠ "") (hdns : dnsLabelOk sid = false)
    (hp : jsTrim p ≠ "") (hr : jsTrim r ≠ "")
    (himg : jsTrim img ≠ "")
    (hcpu : ∀ cv, cpu = some cv → cv = "" ∨ cv ∈ VALID_CPUS)
    (hmem : mem ≠ "") (hmemBad : memOk mem = false)
    (hmi : 0 ≤ mi) (hma : 0 ≤ ma) (hmm : ma < mi) :
    validateConfig
      { template := some
          { containers :=
              { image := some img, env := envl,
                resources := some { limits := some { cpu := cpu, memory := some mem },
                                    cpuIdle := ci } } :: rest
            scaling := some { minInstanceCount := some mi, maxInstanceCount := some ma }
            timeout := to2 }
        description := d }
      (some sid) (some p) (some r) =
      [⟨"serviceName",
        "Service name must be DNS label (lowercase, numbers, hyphens, max 63 chars)"⟩,
       ⟨"resources.memory", "Memory must be e.g. 256Mi, 512Mi, 1Gi, 2Gi"⟩,
       ⟨"scaling", "minInstanceCount cannot exceed maxInstanceCount"⟩] := by
  have hmi2 : ¬(mi < 0) := by omega
  have hma2 : ¬(ma < 0) := by omega
  have hgt : mi > ma := by omega
  rcases hc : cpu with _ | cv
  · simp [validateConfig, optBlank, hsid, hdns, hp, hr, himg, hmem, hmemBad, hmi2, hma2, hgt]
  · rcases hcpu cv hc with h1 | h1 <;>
      simp [validateConfig, optBlank, hsid, hdns, hp, hr, himg, hmem, hmemBad, hmi2, hma2,
        hgt, h1]

/-- Witness for C3: `serviceName = "Bad_Name"`, `memory = "2GB"`, `min = 5 >
max = 2` produce exactly three errors. -/
theorem c3_validation_reports_all_witness :
    validateConfig
      { template := some
          { containers :=
              { image := some "repo/img:v1", env := [],
                resources := some { limits := some { cpu := none, memory := some "2GB" },
                                    cpuIdle := none } } :: []
            scaling := some { minInstanceCount := some 5, maxInstanceCount := some 2 }
            timeout := none }
        description := none }
      (some "Bad_Name") (some "proj") (some "europe-west1") =
      [⟨"serviceName",
        "Service name must be DNS label (lowercase, numbers, hyphens, max 63 chars)"⟩,
       ⟨"resources.memory", "Memory must be e.g. 256Mi, 512Mi, 1Gi, 2Gi"⟩,
       ⟨"scaling", "minInstanceCount cannot exceed maxInstanceCount"⟩] :=
  c3_validation_reports_all "Bad_Name" "proj" "europe-west1" "repo/img:v1" "2GB"
    none [] none [] 5 2 none none
    (by decide) (by decide) (by decide) (by decide) (by decide)
    (fun cv h => nomatch h) (by decide) (by decide) (by decide) (by decide) (by decide)

/-- A decimal digit character contributes at most 9. -/
theorem digit_sub_le {c : Char} (h : c.isDigit = true) : c.toNat - 48 ≤ 9 := by
  simp [Char.isDigit] at h
  have h2 : c.val.toNat ≤ 57 := h.2
  show c.val.toNat - 48 ≤ 9
  omega

/-- Accumulator bound for the digit fold. -/
theorem digitsVal_foldl_lt (l : List Char) :
    ∀ a : Nat, (∀ c ∈ l, c.isDigit = true) →
      l.foldl (fun a c => a * 10 + (c.toNat - 48)) a < (a + 1) * 10 ^ l.length := by
  induction l with
  | nil => intro a _; simp
  | cons c t ih =>
    intro a hd
    have hdc : c.toNat - 48 ≤ 9 := digit_sub_le (hd c (List.mem_cons_self c t))
    have ht := ih (a * 10 + (c.toNat - 48)) fun x hx => hd x (List.mem_cons_of_mem _ hx)
    calc (c :: t).foldl (fun a c => a * 10 + (c.toNat - 48)) a
        = t.foldl (fun a c => a * 10 + (c.toNat - 48)) (a * 10 + (c.toNat - 48)) := rfl
      _ < (a * 10 + (c.toNat - 48) + 1) * 10 ^ t.length := ht
      _ ≤ ((a + 1) * 10) * 10 ^ t.length := by
          have : a * 10 + (c.toNat - 48) + 1 ≤ (a + 1) * 10 := by omega
          exact Nat.mul_le_mul_right _ this
      _ = (a + 1) * 10 ^ (c :: t).length := by
          rw [List.length_cons, Nat.mul_assoc, ← Nat.pow_succ']

/-- The value of an all-digit list is below `10 ^ length`. -/
theorem digitsVal_lt (l : List Char) (hd : ∀ c ∈ l, c.isDigit = true) :
    digitsVal l < 10 ^ l.length := by
  have := digitsVal_foldl_lt l 0 hd
  simpa [digitsVal] using this

/-- The fractional capture group of the duration grammar is all digits. -/
theorem durMatch_frac_digits {l ds fs : List Char}
    (h : durMatch l = some (ds, some fs)) : ∀ c ∈ fs, c.isDigit = true := by
  unfold durMatch at h
  split at h
  · cases h
  · split at h
    · cases h
    · split at h
      · cases h
      · split at h
        · intro c hc
          obtain ⟨h1, h2⟩ := Prod.mk.inj (Option.some.inj h)
          have h4 := Option.some.inj h2
          subst h4
          exact List.mem_takeWhile_imp hc
        · cases h
    · cases h

/-- C10: `parseTimeoutToDuration` is total and clamped — for every input
string the result has `seconds ≥ 0` and `0 ≤ nanos < 10^9`, and an input
matching neither the duration grammar nor a leading integer (after trimming
and unit normalization) silently defaults to `{seconds := 300, nanos := 0}`
rather than being rejected. -/
theorem c10_timeout_total_clamped (s : String) :
    0 ≤ (parseTimeoutToDuration s).seconds ∧
    0 ≤ (parseTimeoutToDuration s).nanos ∧
    (parseTimeoutToDuration s).nanos < 1000000000 ∧
    ((durMatch (jsAppendS (jsTrim s)).toList = none ∧
      jsParseInt (jsAppendS (jsTrim s)) = none) →
      parseTimeoutToDuration s = ⟨300, 0⟩) := by
  unfold parseTimeoutToDuration
  cases hm : durMatch (jsAppendS (jsTrim s)).toList with
  | none =>
    cases hpi : jsParseInt (jsAppendS (jsTrim s)) with
    | none =>
      refine ⟨le_max_left 0 _, le_refl 0, by norm_num, fun _ => ?_⟩
      norm_num
    | some k =>
      exact ⟨le_max_left 0 _, le_refl 0, by norm_num, fun hcon => nomatch hcon.2⟩
  | some t =>
    obtain ⟨ds, frac⟩ := t
    cases frac with
    | none =>
      exact ⟨le_max_left 0 _, le_refl 0, by norm_num, fun hcon => nomatch hcon.1⟩
    | some fs =>
      have hdig : ∀ c ∈ (padTo9 fs).take 9, c.isDigit = true := by
        intro c hc
        have hc2 : c ∈ padTo9 fs := List.mem_of_mem_take hc
        unfold padTo9 at hc2
        rcases List.mem_append.1 hc2 with h1 | h1
        · exact durMatch_frac_digits hm c h1
        · rw [List.eq_of_mem_replicate h1]
          decide
      have hlen : ((padTo9 fs).take 9).length ≤ 9 := by
        simp [List.length_take]
      have hlt : digitsVal ((padTo9 fs).take 9) < 10 ^ 9 :=
        lt_of_lt_of_le (digitsVal_lt _ hdig) (Nat.pow_le_pow_right (by norm_num) hlen)
      refine ⟨le_max_left 0 _, Int.ofNat_nonneg _, ?_, fun hcon => nomatch hcon.1⟩
      show (digitsVal ((padTo9 fs).take 9) : Int) < 1000000000
      exact_mod_cast hlt

/-- Witness for C10 at the unparsable input `"abc"`. -/
theorem c10_timeout_total_clamped_witness :
    parseTimeoutToDuration "abc" = ⟨300, 0⟩ ∧
    0 ≤ (parseTimeoutToDuration "abc").seconds ∧
    (parseTimeoutToDuration "abc").nanos < 1000000000 :=
  ⟨(c10_timeout_total_clamped "abc").2.2.2 ⟨by decide, by decide⟩,
   (c10_timeout_total_clamped "abc").1,
   (c10_timeout_total_clamped "abc").2.2.1⟩

/-- C8: `applyOverrides` never mutates its `base` argument.  For every heap
whose allocated objects (the shared base template among them) live below the
fresh-address bound `n`, every override object, and every run of the merge
program that returns, the heap below `n` — in particular the whole object
graph of the base template — is unchanged: all writes land on the
`structuredClone` copy or on freshly allocated objects. -/
theorem c8_merge_never_mutates_base
    (h : Heap) (n : Nat) (o : Overrides) (fuel baseAddr : Nat)
    (r : Nat) (h2 : Heap) (c2 : Nat)
    (hbound : ∀ a, n ≤ a → h a = none)
    (hrun : applyOverridesH o fuel (.ref baseAddr) h n = some (r, h2, c2)) :
    ∀ b, b < n → h2 b = h b := by
  have hrc : RegionClosed n h := by
    intro a ha o2 ho2
    rw [hbound a ha] at ho2
    cases ho2
  exact fun b hb =>
    ((ht_applyOverridesH o fuel (.ref baseAddr)) h n hrc le_rfl r h2 c2 hrun).1 b hb

/-- Witness for C8: a concrete five-object base heap is bit-for-bit unchanged
by a merge that overrides the image, the scaling bounds and the timeout. -/
theorem c8_merge_never_mutates_base_witness :
    ∃ r h2 c2, applyOverridesH ov8 10 (.ref 0) h8 5 = some (r, h2, c2) ∧
      h2 0 = h8 0 ∧ h2 1 = h8 1 ∧ h2 2 = h8 2 ∧ h2 3 = h8 3 ∧ h2 4 = h8 4 := by
  obtain ⟨⟨r, h2, c2⟩, hrun⟩ : ∃ t, applyOverridesH ov8 10 (.ref 0) h8 5 = some t :=
    ⟨_, rfl⟩
  have hbound : ∀ a, 5 ≤ a → h8 a = none := by
    intro a ha
    unfold h8
    rw [if_neg (by omega), if_neg (by omega), if_neg (by omega), if_neg (by omega),
      if_neg (by omega)]
  have hframe := c8_merge_never_mutates_base h8 5 ov8 10 0 r h2 c2 hbound hrun
  exact ⟨r, h2, c2, hrun, hframe 0 (by omega), hframe 1 (by omega), hframe 2 (by omega),
    hframe 3 (by omega), hframe 4 (by omega)⟩
